import Mathlib

/-!
Verification development for the scene-gen library: a shallow embedding of
`src/scenegen/schema.py`, `scene_selector.py`, `scene_mapper.py` and
`qlc_io.py`, followed by theorems about the embedded operations.

Conventions of the embedding:
- Python dicts preserve insertion order, so every dict is an association list.
- Python `random.choices(population, weights, k=1)` draws one element by
  cumulative weights; it is modelled by `pick_weighted` applied to a draw
  `r % total`.
- Machine integers are `Int`/`Nat`; the two places the source computes through
  floats (`int(energy / 5 * 255)` and `int(component * intensity / 255)`)
  evaluate, for every integer input the clamps can expose, to the exact
  integer divisions used here (255 is divisible by 5, and a quotient with
  denominator 255 is never within a double ulp of a different integer).
-/

set_option maxHeartbeats 1000000

namespace SceneGen

/-! ## schema.py -/

/-- schema.FixtureState: fixture id plus an insertion-ordered channel map. -/
structure FixtureState where
  fixture_id : String
  channel_values : List (String × Int)
deriving DecidableEq

/-- schema.SceneSpec. -/
structure SceneSpec where
  name : String
  scene_type : String
  states : List FixtureState
  description : Option String
deriving DecidableEq

/-- schema.SceneSet. -/
structure SceneSet where
  title : String
  scenes : List SceneSpec
deriving DecidableEq

/-! ## rig.py -/

/-- rig.ChannelDef. -/
structure ChannelDef where
  index : Nat
  name : String
  channel_type : String
deriving DecidableEq

/-- rig.FixtureDef (metadata fields not read by the verified code are elided). -/
structure FixtureDef where
  fixture_id : String
  name : String
  channels : List ChannelDef
deriving DecidableEq

/-- rig.FixtureDef.channel_count. -/
def FixtureDef.channel_count (f : FixtureDef) : Nat := f.channels.length

/-- rig.Rig. -/
structure Rig where
  name : String
  fixtures : List FixtureDef
deriving DecidableEq

/-! ## scene_selector.py -/

/-- scene_selector.SceneContext (section/tempo are never read by select_scene). -/
structure SceneContext where
  energy : Int
  last_palette : Option String
  last_scene : Option String
  is_drop : Bool
  strobe_allowed : Bool
deriving DecidableEq

/-- scene_selector.SemanticScene (the meta bag is never read by select_scene). -/
structure SemanticScene where
  name : String
  energy : Int
  palette : String
  motion : String
  strobe : String
  focus : String
deriving DecidableEq

/-- scene_selector._filter_by_energy. -/
def _filter_by_energy (scenes : List SemanticScene) (target delta : Int) : List SemanticScene :=
  scenes.filter (fun s => decide (|s.energy - target| ≤ delta))

/-- The `if context.last_palette:` block of select_scene. Python truthiness:
the filter is skipped both for None and for the empty string. -/
def palette_stage (context : SceneContext) (l : List SemanticScene) : List SemanticScene :=
  match context.last_palette with
  | some p => if p = "" then l else l.filter (fun s => decide (s.palette ≠ p))
  | none => l

/-- The `if context.last_scene:` block of select_scene (same truthiness). -/
def last_scene_stage (context : SceneContext) (l : List SemanticScene) : List SemanticScene :=
  match context.last_scene with
  | some n => if n = "" then l else l.filter (fun s => decide (s.name ≠ n))
  | none => l

/-- The `if context.energy < 3:` block of select_scene. -/
def wash_stage (context : SceneContext) (l : List SemanticScene) : List SemanticScene :=
  if context.energy < 3 then l.filter (fun s => decide (s.focus = "wash")) else l

/-- The `if context.is_drop:` block of select_scene. -/
def drop_stage (context : SceneContext) (l : List SemanticScene) : List SemanticScene :=
  if context.is_drop then
    l.filter (fun s => decide (s.focus = "puntuales" ∨ s.focus = "special"))
  else l

/-- The `if not context.strobe_allowed:` block of select_scene. -/
def strobe_stage (context : SceneContext) (l : List SemanticScene) : List SemanticScene :=
  if context.strobe_allowed then l else l.filter (fun s => decide (s.strobe = "none"))

/-- The filter chain of scene_selector.select_scene before the relaxation rule,
as the composition of its five conditional blocks over the energy window. -/
def filtered_candidates (context : SceneContext) (catalog : List SemanticScene) :
    List SemanticScene :=
  strobe_stage context (drop_stage context (wash_stage context
    (last_scene_stage context (palette_stage context
      (_filter_by_energy catalog context.energy 1)))))

/-- The candidate set actually handed to the weighted choice: the relaxation
rule of select_scene falls back to the whole catalog on an empty filter result. -/
def select_candidates (context : SceneContext) (catalog : List SemanticScene) :
    List SemanticScene :=
  let candidates := filtered_candidates context catalog
  if candidates.isEmpty then catalog else candidates

/-- The per-scene weight computed inside _weighted_choice_by_energy:
`max(1, 3 - abs(scene.energy - target))`. Natural subtraction truncates at 0
exactly where the Python expression goes nonpositive and `max 1` takes over. -/
def scene_weight (target_energy : Int) (scene : SemanticScene) : Nat :=
  max 1 (3 - (scene.energy - target_energy).natAbs)

/-- The weights list built by _weighted_choice_by_energy. -/
def weights_for (candidates : List SemanticScene) (target_energy : Int) : List Nat :=
  candidates.map (scene_weight target_energy)

/-- Cumulative-weight draw: the model of random.choices(candidates, weights, k=1)
for an integer draw r in [0, total weight). -/
def pick_weighted : List (SemanticScene × Nat) → Nat → Option SemanticScene
  | [], _ => none
  | (s, w) :: rest, r => if r < w then some s else pick_weighted rest (r - w)

/-- scene_selector._weighted_choice_by_energy, parameterised by the random draw r. -/
def _weighted_choice_by_energy (candidates : List SemanticScene) (target_energy : Int)
    (r : Nat) : Option SemanticScene :=
  if candidates.isEmpty then none
  else pick_weighted (candidates.zip (weights_for candidates target_energy))
    (r % (weights_for candidates target_energy).sum)

/-- scene_selector.select_scene, parameterised by the random draw r. -/
def select_scene (context : SceneContext) (catalog : List SemanticScene) (r : Nat) :
    Option SemanticScene :=
  _weighted_choice_by_energy (select_candidates context catalog) context.energy r

/-! ## scene_mapper.py -/

/-- An RGB triple of machine integers. -/
abbrev RGB := Int × Int × Int

/-- The clamp `max(0, min(255, x))` used by scene_mapper._tuple_rgb and by
qlc_io._append_fixture_channels. -/
def clamp_byte (x : Int) : Int := max 0 (min 255 x)

/-- scene_mapper._tuple_rgb. -/
def _tuple_rgb (r g b : Int) : RGB := (clamp_byte r, clamp_byte g, clamp_byte b)

/-- A palette entry: single rgb colour, two-colour split, or ordered cycle
(the three shapes scene_mapper._colors_for_scene distinguishes, in its
priority order split, cycle, rgb). -/
inductive Palette where
  | split (left right : RGB)
  | cycle (colors : List RGB)
  | rgb (color : RGB)
deriving DecidableEq

/-- Python dict lookup on an association list with unique keys. -/
def dict_find (palettes : List (String × Palette)) (k : String) : Option Palette :=
  match palettes.find? (fun p => p.1 == k) with
  | some p => some p.2
  | none => none

/-- scene_mapper._colors_for_scene; a missing palette key behaves like an empty
dict, i.e. falls through to the default white rgb. -/
def _colors_for_scene (palette : Option Palette) (count : Nat) : List RGB :=
  if count = 0 then []
  else match palette with
    | some (.split l r) =>
        let left := _tuple_rgb l.1 l.2.1 l.2.2
        let right := _tuple_rgb r.1 r.2.1 r.2.2
        (List.range count).map (fun i => if i % 2 = 0 then left else right)
    | some (.cycle cs) =>
        let cycle := cs.map (fun c => _tuple_rgb c.1 c.2.1 c.2.2)
        if cycle.isEmpty then [(255, 255, 255)] else cycle
    | some (.rgb c) => List.replicate count (_tuple_rgb c.1 c.2.1 c.2.2)
    | none => List.replicate count (_tuple_rgb 255 255 255)

/-- The brightness `int(energy / 5 * 255)` clamped by `max(30, min(255, .))`.
Since 255 = 5 * 51 the inner expression equals energy * 51 exactly. -/
def intensity_for (energy : Int) : Int := max 30 (min 255 (energy * 255 / 5))

/-- scene_mapper._build_channels_for_fixture. -/
def _build_channels_for_fixture (fixture : FixtureDef) (rgb : RGB) (energy : Int) :
    List (String × Int) :=
  let intensity := intensity_for energy
  let r := rgb.1
  let g := rgb.2.1
  let b := rgb.2.2
  let scaled_rgb : RGB := (r * intensity / 255, g * intensity / 255, b * intensity / 255)
  if fixture.channel_count ≥ 5 then
    [("ch0", intensity), ("ch1", r), ("ch2", g), ("ch3", b), ("ch4", max r (max g b))]
  else if fixture.channel_count = 4 then
    [("ch0", intensity), ("ch1", r), ("ch2", g), ("ch3", max b (max r g))]
  else if fixture.channel_count ≥ 3 then
    [("ch0", scaled_rgb.1), ("ch1", scaled_rgb.2.1), ("ch2", scaled_rgb.2.2)]
  else if fixture.channel_count ≥ 1 then
    [("ch0", intensity)]
  else []

/-- The dict comprehension `{fx.name: fx for fx in rig.fixtures}`: for a
duplicated display name the last fixture wins. -/
def name_to_fixture (rig : Rig) (n : String) : Option FixtureDef :=
  rig.fixtures.reverse.find? (fun fx => fx.name == n)

/-- scene_mapper._index_fixtures_by_category: unresolvable names are skipped. -/
def _index_fixtures_by_category (rig : Rig)
    (fixture_categories : List (String × List String)) :
    List (String × List FixtureDef) :=
  fixture_categories.map (fun p => (p.1, p.2.filterMap (name_to_fixture rig)))

/-- `str.lower()` applied per character. -/
def lower_str (s : String) : String := ⟨s.data.map Char.toLower⟩

/-- scene_mapper._resolve_fixtures_for_focus. -/
def _resolve_fixtures_for_focus (focus : String)
    (fixtures_by_category : List (String × List FixtureDef)) : List FixtureDef :=
  if lower_str focus = "mixed" then (fixtures_by_category.map Prod.snd).flatten
  else match fixtures_by_category.find? (fun p => p.1 == focus) with
    | some p => p.2
    | none => []

/-- scene_mapper.apply_scene, parameterised by the random draw-free inputs. -/
def apply_scene (scene : SemanticScene) (rig : Rig) (palettes : List (String × Palette))
    (fixture_categories : List (String × List String)) : SceneSpec :=
  let fixtures_by_category := _index_fixtures_by_category rig fixture_categories
  let targets := _resolve_fixtures_for_focus scene.focus fixtures_by_category
  let colors := _colors_for_scene (dict_find palettes scene.palette) targets.length
  let states := targets.enum.map (fun p =>
    let rgb := if colors.isEmpty then ((255 : Int), (255 : Int), (255 : Int))
      else colors.getD (p.1 % colors.length) (255, 255, 255)
    FixtureState.mk p.2.fixture_id (_build_channels_for_fixture p.2 rgb scene.energy))
  SceneSpec.mk scene.name "static" states
    (some ("Semantic scene " ++ scene.name ++ " focus=" ++ scene.focus
      ++ " palette=" ++ scene.palette ++ " energy=" ++ toString scene.energy))

/-! ## qlc_io.py -/

/-- Python str.isdigit on the lowered key: nonempty and all digits. -/
def string_digits (s : String) : Bool := !s.data.isEmpty && s.data.all Char.isDigit

/-- Python int(s) on a digit string. -/
def parse_digits (s : String) : Nat :=
  s.data.foldl (fun acc c => acc * 10 + (c.toNat - 48)) 0

/-- Python s[n:] (character based). -/
def drop_chars (s : String) (n : Nat) : String := ⟨s.data.drop n⟩

/-- Python s.startswith(p). -/
def starts_with (s p : String) : Bool := p.data.isPrefixOf s.data

/-- The loop over ("ch", "channel", "chan") inside _resolve_channel_index:
the first p with `lowered.startswith(p) and lowered[len(p):].isdigit()` yields
the parsed suffix. -/
def ch_prefix_value (lowered : String) : List String → Option Nat
  | [] => none
  | p :: rest =>
    if starts_with lowered p && string_digits (drop_chars lowered p.data.length) then
      some (parse_digits (drop_chars lowered p.data.length))
    else ch_prefix_value lowered rest

/-- The `if fixture:` block of qlc_io._resolve_channel_index: the first channel
whose lowered name equals the lowered key, else the fallback. -/
def _name_lookup (fixture : Option FixtureDef) (lowered : String) (fallback : Nat) : Nat :=
  match fixture with
  | some fx =>
    match fx.channels.find? (fun ch => lower_str ch.name == lowered) with
    | some ch => ch.index
    | none => fallback
  | none => fallback

/-- qlc_io._resolve_channel_index. -/
def _resolve_channel_index (fixture : Option FixtureDef) (channel_name : String)
    (fallback : Nat) : Nat :=
  if string_digits (lower_str channel_name) then parse_digits (lower_str channel_name)
  else match ch_prefix_value (lower_str channel_name) ["ch", "channel", "chan"] with
    | some n => n
    | none => _name_lookup fixture (lower_str channel_name) fallback

/-- The (index, clamped value) pairs accumulated by the enumerate loop of
_append_fixture_channels, in channel-map insertion order. -/
def resolved_items (fixture : Option FixtureDef) (state : FixtureState) :
    List (Nat × Int) :=
  state.channel_values.enum.map
    (fun p => (_resolve_channel_index fixture p.2.1 p.1, clamp_byte p.2.2))

/-- Comparison by resolved channel index, the key of channel_items.sort. -/
def pair_le (a b : Nat × Int) : Prop := a.1 ≤ b.1

instance : DecidableRel pair_le := fun a b => Nat.decLe a.1 b.1

instance : IsTotal (Nat × Int) pair_le := ⟨fun a b => Nat.le_total a.1 b.1⟩

instance : IsTrans (Nat × Int) pair_le := ⟨fun _ _ _ hab hbc => Nat.le_trans hab hbc⟩

/-- The flattened comma-joined "idx,val,idx,val,..." payload text. -/
def encode_items (items : List (Nat × Int)) : String :=
  String.intercalate "," ((items.map (fun p => [toString p.1, toString p.2])).flatten)

/-- A timeline entry written as a ShowFunction child of a Track. -/
structure ShowEntry where
  id : Nat
  start_time : Nat
  duration : Nat
deriving DecidableEq

/-- A child node of a Function element, as qlc_io builds them. -/
inductive FuncChild where
  | speed (fadeIn fadeOut duration : Nat)
  | fixtureVal (id : String) (payload : String)
  | timeDivision (division_type : String) (bpm : Nat)
  | track (id : Nat) (name : String) (sceneId : Nat) (entries : List ShowEntry)
deriving DecidableEq

/-- A Function element of the Engine section. -/
structure FunctionNode where
  id : Nat
  ftype : String
  name : String
  children : List FuncChild
deriving DecidableEq

/-- A direct child of the Engine section. Sections the code never touches
(Fixture definitions, Monitor, anything else) are carried opaquely. -/
inductive EngineChild where
  | function (f : FunctionNode)
  | fixture (id : String)
  | monitor
  | other (tag : String)
deriving DecidableEq

/-- A parsed workspace: the Engine section when present. -/
structure Workspace where
  engine : Option (List EngineChild)
deriving DecidableEq

/-- qlc_io._append_fixture_channels: none when the channel map resolves to no
items (the early return that skips the FixtureVal node), else the compact
payload of the items sorted (stably) by ascending resolved index. -/
def _append_fixture_channels (fixture_index : String → Option FixtureDef)
    (fixture_state : FixtureState) : Option FuncChild :=
  if (resolved_items (fixture_index fixture_state.fixture_id) fixture_state).isEmpty then
    none
  else some (.fixtureVal fixture_state.fixture_id
    (encode_items (List.insertionSort pair_le
      (resolved_items (fixture_index fixture_state.fixture_id) fixture_state))))

/-- qlc_io._append_scene's node: Speed child then one FixtureVal per state
that produced items. -/
def scene_function_node (fixture_index : String → Option FixtureDef)
    (scene : SceneSpec) (scene_id : Nat) : FunctionNode :=
  FunctionNode.mk scene_id "Scene" scene.name
    (FuncChild.speed 0 0 0 :: scene.states.filterMap (_append_fixture_channels fixture_index))

/-- qlc_io._append_show's node: TimeDivision then a Track scheduling the member
ids at start times idx * step_ms (the code indexes scene_ids[0] for the Track
attribute, so it is only ever called with a nonempty id list). -/
def show_function_node (show_id : Nat) (scene_ids : List Nat) (show_name : String)
    (step_ms : Nat) (is_chaser : Bool) : FunctionNode :=
  FunctionNode.mk show_id "Show" show_name
    [FuncChild.timeDivision "Time" 120,
     FuncChild.track 0 show_name (scene_ids.headD 0)
       (scene_ids.enum.map (fun p =>
         ShowEntry.mk p.2 (p.1 * step_ms) (if is_chaser then 0 else step_ms)))]

/-- Tag test for the Monitor scan of write_scenes_to_qlc. -/
def isMonitor : EngineChild → Bool
  | .monitor => true
  | _ => false

/-- Tag test for Function children. -/
def isFunction : EngineChild → Bool
  | .function _ => true
  | _ => false

/-- The ids scanned by `engine.findall(Function)` (well-formed documents carry
an integer ID on every Function node). -/
def function_ids (engine : List EngineChild) : List Nat :=
  engine.filterMap (fun c => match c with | .function f => some f.id | _ => none)

/-- The dict `{fx.fixture_id: fx for fx in rig.fixtures}`: last binding wins. -/
def fixture_index (rig : Rig) (fid : String) : Option FixtureDef :=
  rig.fixtures.reverse.find? (fun fx => fx.fixture_id == fid)

/-- `next_id = max(existing_ids) + 1 if existing_ids else 0`. -/
def next_function_id (engine : List EngineChild) : Nat :=
  if function_ids engine = [] then 0 else (function_ids engine).foldl Nat.max 0 + 1

/-- The `for idx, child in enumerate(list(engine))` scan that records the index
of the first Monitor child, if any. -/
def monitor_scan : List EngineChild → Option Nat
  | [] => none
  | c :: rest => if isMonitor c then some 0 else (monitor_scan rest).map (· + 1)

/-- engine.insert(idx, el) when an insertion point is tracked, engine.append(el)
otherwise. -/
def insert_function (engine : List EngineChild) (insert_at : Option Nat)
    (f : FunctionNode) : List EngineChild :=
  match insert_at with
  | none => engine ++ [.function f]
  | some idx => engine.insertIdx idx (.function f)

/-- The per-SceneSpec loop of write_scenes_to_qlc: threads the engine children,
the running next_id and the tracked Monitor index, and collects new_scene_ids. -/
def append_scenes (fixture_index : String → Option FixtureDef) :
    List SceneSpec → List EngineChild → Nat → Option Nat →
    List EngineChild × Nat × Option Nat × List Nat
  | [], engine, next_id, monitor_idx => (engine, next_id, monitor_idx, [])
  | scene :: rest, engine, next_id, monitor_idx =>
    let engine1 := insert_function engine monitor_idx
      (scene_function_node fixture_index scene next_id)
    let monitor_idx1 := monitor_idx.map (· + 1)
    let result := append_scenes fixture_index rest engine1 (next_id + 1) monitor_idx1
    (result.1, result.2.1, result.2.2.1, next_id :: result.2.2.2)

/-- qlc_io.write_scenes_to_qlc restricted to the flags exercised here
(create_flash_chaser = create_primary_sweep = False): missing Engine is the
hard error raised before anything is written; otherwise the scenes and the
optional wrapping show are inserted and the new engine children returned. -/
def write_scenes_to_qlc (ws : Workspace) (rig : Rig) (scenes : SceneSet)
    (create_show : Bool) (show_name : String) (show_step_ms : Nat) :
    Except String (List EngineChild) :=
  match ws.engine with
  | none => .error "QLC+ workspace missing <Engine> section"
  | some engine =>
    let next_id := next_function_id engine
    let monitor_idx := monitor_scan engine
    let result := append_scenes (fixture_index rig) scenes.scenes engine next_id monitor_idx
    if create_show ∧ result.2.2.2 ≠ [] then
      .ok (insert_function result.1 result.2.2.1
        (show_function_node result.2.1 result.2.2.2 show_name show_step_ms false))
    else .ok result.1

/-- Decoder for the compact payload: comma-split, each token a digit string,
paired up as (index, value). -/
def pair_up : List Nat → Option (List (Nat × Nat))
  | [] => some []
  | [_] => none
  | a :: b :: rest => (pair_up rest).map (fun l => (a, b) :: l)

/-- Split a character list at commas (the inverse of the ",".join). -/
def split_commas : List Char → List (List Char)
  | [] => [[]]
  | c :: rest =>
    match split_commas rest with
    | [] => [[c]]
    | cur :: done => if c = ',' then [] :: cur :: done else (c :: cur) :: done

/-- Decode an "idx,val,idx,val,..." payload. -/
def decode_payload (s : String) : Option (List (Nat × Nat)) :=
  let tokens := (split_commas s.data).map (fun cs => String.mk cs)
  if tokens.all string_digits then pair_up (tokens.map parse_digits) else none

deriving instance DecidableEq for Except

/-! ## Derived descriptions of the merge output -/

/-- The Scene Function children created by the per-SceneSpec loop, in creation
order with consecutive ids from next_id. -/
def created_scene_nodes (fixture_index : String → Option FixtureDef) :
    List SceneSpec → Nat → List EngineChild
  | [], _ => []
  | scene :: rest, next_id =>
    EngineChild.function (scene_function_node fixture_index scene next_id)
      :: created_scene_nodes fixture_index rest (next_id + 1)

/-- Every Function child created by a merge call: the scene nodes in SceneSpec
order followed by the wrapping show when requested and at least one scene
exists. -/
def created_functions (fixture_index : String → Option FixtureDef)
    (specs : List SceneSpec) (next_id : Nat) (create_show : Bool)
    (show_name : String) (show_step_ms : Nat) : List EngineChild :=
  created_scene_nodes fixture_index specs next_id ++
    (if create_show ∧ specs ≠ [] then
      [EngineChild.function (show_function_node (next_id + specs.length)
        (List.range' next_id specs.length) show_name show_step_ms false)]
    else [])

/-! ## Concrete inputs used in counterexamples and witnesses -/

/-- A context whose last_palette is set to the empty string. -/
def ctx_blank_palette : SceneContext := SceneContext.mk 3 (some "") none false true

/-- A catalog scene whose palette is the empty string. -/
def scene_blank_palette : SemanticScene := SemanticScene.mk "s" 3 "" "static" "fast" "wash"

/-- A low-energy drop context with strobes disallowed. -/
def ctx_drop_low : SceneContext := SceneContext.mk 2 none none true false

/-- A strobing, out-of-window scene. -/
def scene_strobe : SemanticScene := SemanticScene.mk "strobey" 5 "p" "static" "fast" "front"

/-- A plain context with no repetition-avoidance state. -/
def ctx_plain : SceneContext := SceneContext.mk 3 none none false true

/-- A plain wash scene at energy 3. -/
def scene_plain : SemanticScene := SemanticScene.mk "a" 3 "p" "m" "none" "wash"

/-- The 3-channel fixture with id "0" used in the concrete examples (channels
carry the synthetic names ch0..ch2, as load_rig_from_qlc produces). -/
def fx0 : FixtureDef :=
  FixtureDef.mk "0" "Par"
    [ChannelDef.mk 0 "ch0" "generic", ChannelDef.mk 1 "ch1" "generic",
     ChannelDef.mk 2 "ch2" "generic"]

/-- A one-fixture rig around fx0. -/
def rig0 : Rig := Rig.mk "rig" [fx0]

/-- Modelled from the spec: `intensity = clamp(round(energy/5 * 255), 30, 255)`
computed over exact rationals. -/
def spec_intensity (energy : Int) : Int :=
  max 30 (min 255 (round ((energy : ℚ) / 5 * 255)))

/-- A workspace with one fixture node and three Function nodes with ids 0, 2, 5. -/
def ws025 : Workspace :=
  Workspace.mk (some
    [EngineChild.fixture "0",
     EngineChild.function (FunctionNode.mk 0 "Scene" "Old0" []),
     EngineChild.function (FunctionNode.mk 2 "Scene" "Old2" []),
     EngineChild.function (FunctionNode.mk 5 "Chaser" "Old5" [])])

/-- A workspace holding only the fixture definition for fixture id "0". -/
def ws_fixture_only : Workspace := Workspace.mk (some [EngineChild.fixture "0"])

/-- A SceneSpec setting channel "ch0" of fixture "0" to 128. -/
def spec_ch0 : SceneSpec :=
  SceneSpec.mk "S1" "static" [FixtureState.mk "0" [("ch0", 128)]] none

/-- A second SceneSpec with two channels given out of order. -/
def spec_two : SceneSpec :=
  SceneSpec.mk "S2" "static" [FixtureState.mk "0" [("ch2", 10), ("ch0", 20)]] none

/-! ## Selector lemmas -/

theorem mem_energy_filter {s : SemanticScene} {l : List SemanticScene} {t d : Int}
    (h : s ∈ _filter_by_energy l t d) : s ∈ l ∧ |s.energy - t| ≤ d := by
  have hm := List.mem_filter.mp h
  exact ⟨hm.1, of_decide_eq_true hm.2⟩

theorem mem_palette_stage {context : SceneContext} {s : SemanticScene}
    {l : List SemanticScene} (h : s ∈ palette_stage context l) :
    s ∈ l ∧ ∀ p, context.last_palette = some p → p ≠ "" → s.palette ≠ p := by
  unfold palette_stage at h
  cases hp : context.last_palette with
  | none =>
    rw [hp] at h
    exact ⟨h, fun p hp' => by cases hp'⟩
  | some p =>
    rw [hp] at h
    have h' : s ∈ if p = "" then l
        else l.filter (fun s => decide (s.palette ≠ p)) := h
    by_cases hpe : p = ""
    · rw [if_pos hpe] at h'
      refine ⟨h', fun q hq hne => ?_⟩
      injection hq with hq'
      subst hq'
      exact absurd hpe hne
    · rw [if_neg hpe] at h'
      have hm := List.mem_filter.mp h'
      refine ⟨hm.1, fun q hq _ => ?_⟩
      injection hq with hq'
      subst hq'
      exact of_decide_eq_true hm.2

theorem mem_last_scene_stage {context : SceneContext} {s : SemanticScene}
    {l : List SemanticScene} (h : s ∈ last_scene_stage context l) :
    s ∈ l ∧ ∀ n, context.last_scene = some n → n ≠ "" → s.name ≠ n := by
  unfold last_scene_stage at h
  cases hp : context.last_scene with
  | none =>
    rw [hp] at h
    exact ⟨h, fun n hn' => by cases hn'⟩
  | some n =>
    rw [hp] at h
    have h' : s ∈ if n = "" then l
        else l.filter (fun s => decide (s.name ≠ n)) := h
    by_cases hne : n = ""
    · rw [if_pos hne] at h'
      refine ⟨h', fun q hq hq' => ?_⟩
      injection hq with hq''
      subst hq''
      exact absurd hne hq'
    · rw [if_neg hne] at h'
      have hm := List.mem_filter.mp h'
      refine ⟨hm.1, fun q hq _ => ?_⟩
      injection hq with hq''
      subst hq''
      exact of_decide_eq_true hm.2

theorem mem_wash_stage {context : SceneContext} {s : SemanticScene}
    {l : List SemanticScene} (h : s ∈ wash_stage context l) :
    s ∈ l ∧ (context.energy < 3 → s.focus = "wash") := by
  unfold wash_stage at h
  by_cases hc : context.energy < 3
  · rw [if_pos hc] at h
    have hm := List.mem_filter.mp h
    exact ⟨hm.1, fun _ => of_decide_eq_true hm.2⟩
  · rw [if_neg hc] at h
    exact ⟨h, fun hcc => absurd hcc hc⟩

theorem mem_drop_stage {context : SceneContext} {s : SemanticScene}
    {l : List SemanticScene} (h : s ∈ drop_stage context l) :
    s ∈ l ∧ (context.is_drop = true → s.focus = "puntuales" ∨ s.focus = "special") := by
  unfold drop_stage at h
  cases hc : context.is_drop
  · rw [hc] at h
    simp only [Bool.false_eq_true, if_false] at h
    exact ⟨h, fun hcc => by cases hcc⟩
  · rw [hc] at h
    simp only [if_true] at h
    have hm := List.mem_filter.mp h
    exact ⟨hm.1, fun _ => of_decide_eq_true hm.2⟩

theorem mem_strobe_stage {context : SceneContext} {s : SemanticScene}
    {l : List SemanticScene} (h : s ∈ strobe_stage context l) :
    s ∈ l ∧ (context.strobe_allowed = false → s.strobe = "none") := by
  unfold strobe_stage at h
  cases hc : context.strobe_allowed
  · rw [hc] at h
    simp only [Bool.false_eq_true, if_false] at h
    have hm := List.mem_filter.mp h
    exact ⟨hm.1, fun _ => of_decide_eq_true hm.2⟩
  · rw [hc] at h
    simp only [if_true] at h
    exact ⟨h, fun hcc => by cases hcc⟩

theorem mem_filtered_candidates {context : SceneContext} {catalog : List SemanticScene}
    {s : SemanticScene} (h : s ∈ filtered_candidates context catalog) :
    s ∈ catalog ∧ |s.energy - context.energy| ≤ 1 ∧
    (∀ p, context.last_palette = some p → p ≠ "" → s.palette ≠ p) ∧
    (∀ n, context.last_scene = some n → n ≠ "" → s.name ≠ n) ∧
    (context.energy < 3 → s.focus = "wash") ∧
    (context.is_drop = true → s.focus = "puntuales" ∨ s.focus = "special") ∧
    (context.strobe_allowed = false → s.strobe = "none") := by
  unfold filtered_candidates at h
  obtain ⟨h, h6⟩ := mem_strobe_stage h
  obtain ⟨h, h5⟩ := mem_drop_stage h
  obtain ⟨h, h4⟩ := mem_wash_stage h
  obtain ⟨h, h3⟩ := mem_last_scene_stage h
  obtain ⟨h, h2⟩ := mem_palette_stage h
  obtain ⟨h1, h0⟩ := mem_energy_filter h
  exact ⟨h1, h0, h2, h3, h4, h5, h6⟩

theorem filtered_candidates_nil (context : SceneContext) :
    filtered_candidates context [] = [] := by
  unfold filtered_candidates _filter_by_energy palette_stage last_scene_stage
  cases context.last_palette <;> cases context.last_scene <;>
    simp [wash_stage, drop_stage, strobe_stage]

theorem pick_weighted_mem : ∀ (l : List (SemanticScene × Nat)) (r : Nat)
    (s : SemanticScene), pick_weighted l r = some s → s ∈ l.map Prod.fst
  | [], _, _, h => by simp [pick_weighted] at h
  | (a, w) :: rest, r, s, h => by
    simp only [pick_weighted] at h
    by_cases hr : r < w
    · rw [if_pos hr] at h
      injection h with h
      subst h
      exact List.mem_cons_self _ _
    · rw [if_neg hr] at h
      exact List.mem_cons_of_mem _ (pick_weighted_mem rest (r - w) s h)

theorem pick_weighted_total : ∀ (l : List (SemanticScene × Nat)) (r : Nat),
    r < (l.map Prod.snd).sum → ∃ s, pick_weighted l r = some s
  | [], r, h => by simp at h
  | (a, w) :: rest, r, h => by
    simp only [pick_weighted]
    by_cases hr : r < w
    · exact ⟨a, if_pos hr⟩
    · rw [if_neg hr]
      apply pick_weighted_total rest
      simp only [List.map_cons, List.sum_cons] at h
      omega

theorem pick_weighted_before : ∀ (l1 : List (SemanticScene × Nat)) (s : SemanticScene)
    (w : Nat) (l2 : List (SemanticScene × Nat)), 0 < w →
    pick_weighted (l1 ++ (s, w) :: l2) ((l1.map Prod.snd).sum) = some s
  | [], s, w, l2, hw => by simp [pick_weighted, hw]
  | (a, wa) :: l1, s, w, l2, hw => by
    simp only [List.cons_append, pick_weighted, List.map_cons, List.sum_cons]
    rw [if_neg (by omega)]
    have hsub : wa + (l1.map Prod.snd).sum - wa = (l1.map Prod.snd).sum := by omega
    rw [hsub]
    exact pick_weighted_before l1 s w l2 hw

theorem zip_self_map (f : SemanticScene → Nat) :
    ∀ l : List SemanticScene, l.zip (l.map f) = l.map (fun a => (a, f a))
  | [] => rfl
  | a :: l => by simp [List.zip_cons_cons, zip_self_map f l]

theorem scene_weight_pos (t : Int) (s : SemanticScene) : 1 ≤ scene_weight t s :=
  le_max_left 1 _

theorem sum_weights_pos {candidates : List SemanticScene} (t : Int)
    (h : candidates ≠ []) : 0 < (weights_for candidates t).sum := by
  cases candidates with
  | nil => exact absurd rfl h
  | cons a l =>
    simp only [weights_for, List.map_cons, List.sum_cons]
    have := scene_weight_pos t a
    omega

theorem weighted_choice_mem {candidates : List SemanticScene} {t : Int} {r : Nat}
    {s : SemanticScene} (h : _weighted_choice_by_energy candidates t r = some s) :
    s ∈ candidates := by
  unfold _weighted_choice_by_energy at h
  by_cases hc : candidates.isEmpty
  · rw [if_pos hc] at h
    cases h
  · rw [if_neg hc] at h
    have hm := pick_weighted_mem _ _ _ h
    rw [weights_for, zip_self_map, List.map_map] at hm
    simpa using hm

theorem weighted_choice_total {candidates : List SemanticScene} (t : Int) (r : Nat)
    (h : candidates ≠ []) : ∃ s, _weighted_choice_by_energy candidates t r = some s := by
  unfold _weighted_choice_by_energy
  rw [if_neg (by simpa [List.isEmpty_iff] using h)]
  apply pick_weighted_total
  rw [weights_for, zip_self_map, List.map_map]
  have hlt : r % (weights_for candidates t).sum < (weights_for candidates t).sum :=
    Nat.mod_lt _ (sum_weights_pos t h)
  simpa [weights_for, Function.comp] using hlt

/-! ## Claim theorems: scene selector -/

/-- C5: select_scene returns none iff the catalog is empty; when the filter
chain leaves an empty candidate set the relaxation rule discards every filter
and the weighted choice draws from the entire original catalog. -/
theorem c5_select_none_iff_empty_catalog (context : SceneContext)
    (catalog : List SemanticScene) (r : Nat) :
    (select_scene context catalog r = none ↔ catalog = []) ∧
    (filtered_candidates context catalog = [] →
      select_candidates context catalog = catalog) := by
  have hrelax : filtered_candidates context catalog = [] →
      select_candidates context catalog = catalog := by
    intro hf
    unfold select_candidates
    rw [hf]
    rfl
  refine ⟨⟨fun h => ?_, fun h => ?_⟩, hrelax⟩
  · by_contra hcat
    have hsel : select_candidates context catalog ≠ [] := by
      unfold select_candidates
      by_cases hf : (filtered_candidates context catalog).isEmpty
      · rw [if_pos hf]
        exact hcat
      · rw [if_neg hf]
        exact fun he => hf (by rw [he]; rfl)
    obtain ⟨s, hs⟩ := weighted_choice_total context.energy r hsel
    unfold select_scene at h
    rw [h] at hs
    cases hs
  · subst h
    unfold select_scene
    rw [hrelax (filtered_candidates_nil context)]
    rfl

/-- Witness for C5 at a concrete input: the empty catalog yields none. -/
theorem c5_select_none_iff_empty_catalog_witness :
    select_scene ctx_plain [] 0 = none :=
  (c5_select_none_iff_empty_catalog ctx_plain [] 0).1.mpr rfl

/-- C6 counterexample: with last_palette set to some "" (Python truthiness
skips the palette filter) the filter chain is non-empty, relaxation does not
trigger, and the returned scene's palette equals the context's last_palette:
the claim as stated fails. -/
theorem c6_counterexample :
    filtered_candidates ctx_blank_palette [scene_blank_palette] ≠ [] ∧
    select_scene ctx_blank_palette [scene_blank_palette] 0 = some scene_blank_palette ∧
    ctx_blank_palette.last_palette = some scene_blank_palette.palette := by
  refine ⟨by decide, by decide, rfl⟩

/-- C6 (amended): when the fully filtered candidate set is non-empty, the
selected scene satisfies every applicable filter, where the last_palette and
last_scene filters apply when those fields are set to a NON-EMPTY string
(Python truthiness). -/
theorem c6_filters_hold_on_unrelaxed_selection (context : SceneContext)
    (catalog : List SemanticScene) (r : Nat) (s : SemanticScene)
    (hne : filtered_candidates context catalog ≠ [])
    (hs : select_scene context catalog r = some s) :
    |s.energy - context.energy| ≤ 1 ∧
    (∀ p, context.last_palette = some p → p ≠ "" → s.palette ≠ p) ∧
    (∀ n, context.last_scene = some n → n ≠ "" → s.name ≠ n) ∧
    (context.energy < 3 → s.focus = "wash") ∧
    (context.is_drop = true → s.focus = "puntuales" ∨ s.focus = "special") ∧
    (context.strobe_allowed = false → s.strobe = "none") := by
  unfold select_scene at hs
  have hcand : select_candidates context catalog = filtered_candidates context catalog := by
    unfold select_candidates
    rw [if_neg (fun he => hne (List.isEmpty_iff.mp he))]
  rw [hcand] at hs
  have hmem := weighted_choice_mem hs
  obtain ⟨-, h1, h2, h3, h4, h5, h6⟩ := mem_filtered_candidates hmem
  exact ⟨h1, h2, h3, h4, h5, h6⟩

/-- Witness for the amended C6 at a concrete selection. -/
theorem c6_filters_hold_on_unrelaxed_selection_witness :
    |scene_plain.energy - ctx_plain.energy| ≤ 1 ∧
    (∀ p, ctx_plain.last_palette = some p → p ≠ "" → scene_plain.palette ≠ p) ∧
    (∀ n, ctx_plain.last_scene = some n → n ≠ "" → scene_plain.name ≠ n) ∧
    (ctx_plain.energy < 3 → scene_plain.focus = "wash") ∧
    (ctx_plain.is_drop = true →
      scene_plain.focus = "puntuales" ∨ scene_plain.focus = "special") ∧
    (ctx_plain.strobe_allowed = false → scene_plain.strobe = "none") :=
  c6_filters_hold_on_unrelaxed_selection ctx_plain [scene_plain] 0 scene_plain
    (by decide) (by decide)

/-- C9: with energy < 3 and is_drop both active, the wash filter and the drop
filter are contradictory, so the filter chain is empty for EVERY catalog and
the relaxation hands the whole catalog to the weighted choice; concretely this
can return a strobing scene although strobe_allowed is false. -/
theorem c9_drop_low_energy_relaxation (context : SceneContext)
    (catalog : List SemanticScene) (h1 : context.energy < 3)
    (h2 : context.is_drop = true) :
    filtered_candidates context catalog = [] ∧
    select_candidates context catalog = catalog ∧
    (filtered_candidates ctx_drop_low [scene_strobe] = [] ∧
      select_scene ctx_drop_low [scene_strobe] 0 = some scene_strobe ∧
      ctx_drop_low.strobe_allowed = false ∧ scene_strobe.strobe ≠ "none") := by
  have hfil : filtered_candidates context catalog = [] := by
    unfold filtered_candidates
    have hdrop : drop_stage context (wash_stage context (last_scene_stage context
        (palette_stage context (_filter_by_energy catalog context.energy 1)))) = [] := by
      unfold drop_stage
      rw [if_pos h2, List.filter_eq_nil_iff]
      intro s hs
      have hw : s.focus = "wash" := (mem_wash_stage hs).2 h1
      simp [hw]
    rw [hdrop]
    unfold strobe_stage
    split <;> rfl
  refine ⟨hfil, ?_, by decide, by decide, rfl, by decide⟩
  unfold select_candidates
  rw [hfil]
  rfl

/-- Witness for C9 at a concrete low-energy drop context. -/
theorem c9_drop_low_energy_relaxation_witness :
    filtered_candidates ctx_drop_low [scene_plain] = [] ∧
    select_candidates ctx_drop_low [scene_plain] = [scene_plain] ∧
    (filtered_candidates ctx_drop_low [scene_strobe] = [] ∧
      select_scene ctx_drop_low [scene_strobe] 0 = some scene_strobe ∧
      ctx_drop_low.strobe_allowed = false ∧ scene_strobe.strobe ≠ "none") :=
  c9_drop_low_energy_relaxation ctx_drop_low [scene_plain] (by decide) rfl

/-- C7: the weighted random choice weights each candidate by exactly
max(1, 3 - |scene.energy - target|): every weight is at least 1, an exact
energy match weighs 3, and every candidate is reachable by some draw (no
eligible candidate has zero selection probability). -/
theorem c7_weighted_choice (candidates : List SemanticScene) (target : Int) (r : Nat)
    (h : candidates ≠ []) :
    (∀ s ∈ candidates,
      ((scene_weight target s : Int) = max 1 (3 - |s.energy - target|) ∧
        1 ≤ scene_weight target s ∧
        (s.energy = target → scene_weight target s = 3))) ∧
    (∃ s, _weighted_choice_by_energy candidates target r = some s ∧ s ∈ candidates) ∧
    (∀ i (hi : i < candidates.length), ∃ d,
      _weighted_choice_by_energy candidates target d = some candidates[i]) := by
  refine ⟨fun s _ => ⟨?_, scene_weight_pos target s, fun he => ?_⟩, ?_, ?_⟩
  · unfold scene_weight
    rw [Int.abs_eq_natAbs]
    rcases le_or_lt (s.energy - target).natAbs 2 with h2 | h2
    · rw [Nat.max_eq_right (by omega), max_eq_right (by omega)]
      omega
    · have h0 : 3 - (s.energy - target).natAbs = 0 := by omega
      rw [h0, Nat.max_eq_left (by omega), max_eq_left (by omega)]
      rfl
  · subst he
    simp [scene_weight]
  · obtain ⟨s, hs⟩ := weighted_choice_total target r h
    exact ⟨s, hs, weighted_choice_mem hs⟩
  · intro i hi
    obtain ⟨c, hc⟩ : ∃ c, candidates[i] = c := ⟨_, rfl⟩
    rw [hc]
    have hsplit : candidates = candidates.take i ++ c :: candidates.drop (i + 1) := by
      rw [← hc]
      conv_lhs => rw [← List.take_append_drop i candidates]
      rw [List.drop_eq_getElem_cons hi]
    set w := scene_weight target with hw
    set pre := candidates.take i with hpre
    set post := candidates.drop (i + 1) with hpost
    refine ⟨(pre.map w).sum, ?_⟩
    have hwpos : 1 ≤ w c := hw ▸ scene_weight_pos target c
    have htot : (weights_for candidates target).sum
        = (pre.map w).sum + (w c + (post.map w).sum) := by
      rw [weights_for, ← hw, hsplit]
      simp [List.sum_append]
    have hlt : (pre.map w).sum < (weights_for candidates target).sum := by
      rw [htot]
      omega
    unfold _weighted_choice_by_energy
    rw [if_neg (by simpa [List.isEmpty_iff] using h), weights_for, ← hw, zip_self_map,
      Nat.mod_eq_of_lt (by simpa [weights_for, ← hw] using hlt)]
    conv_lhs => rw [hsplit]
    rw [List.map_append, List.map_cons]
    have hsum : ((pre.map (fun a => (a, w a))).map Prod.snd).sum = (pre.map w).sum := by
      rw [List.map_map]
      rfl
    rw [← hsum]
    exact pick_weighted_before _ _ _ _ hwpos

/-- Witness for C7 at a concrete candidate list. -/
theorem c7_weighted_choice_witness :
    (∀ s ∈ [scene_plain],
      ((scene_weight 3 s : Int) = max 1 (3 - |s.energy - 3|) ∧
        1 ≤ scene_weight 3 s ∧
        (s.energy = 3 → scene_weight 3 s = 3))) ∧
    (∃ s, _weighted_choice_by_energy [scene_plain] 3 0 = some s ∧ s ∈ [scene_plain]) ∧
    (∀ i (hi : i < [scene_plain].length), ∃ d,
      _weighted_choice_by_energy [scene_plain] 3 d = some [scene_plain][i]) :=
  c7_weighted_choice [scene_plain] 3 0 (by decide)

/-! ## Claim theorems: semantic-to-channel mapper -/

theorem intensity_eq_spec (energy : Int) : spec_intensity energy = intensity_for energy := by
  unfold spec_intensity intensity_for
  have h1 : ((energy : ℚ) / 5 * 255) = ((energy * 51 : Int) : ℚ) := by
    push_cast
    ring
  have h2 : energy * 255 / 5 = energy * 51 := by
    have h3 : energy * 255 = energy * 51 * 5 := by ring
    rw [h3, Int.mul_ediv_cancel _ (by norm_num)]
  rw [h1, round_intCast, h2]

/-- C8: the brightness is clamp(round(energy/5*255), 30, 255) and the channel
map is derived from the fixture's channel count exactly as specified; on a
3-channel fixture with rgb (200,100,50) at energy 2 the values are attenuated
strictly below the raw components and stay in [0,255]. -/
theorem c8_channel_layout (fixture : FixtureDef) (rgb : RGB) (energy : Int) :
    (intensity_for energy = spec_intensity energy) ∧
    (fixture.channel_count ≥ 5 → _build_channels_for_fixture fixture rgb energy =
      [("ch0", intensity_for energy), ("ch1", rgb.1), ("ch2", rgb.2.1), ("ch3", rgb.2.2),
       ("ch4", max rgb.1 (max rgb.2.1 rgb.2.2))]) ∧
    (fixture.channel_count = 4 → _build_channels_for_fixture fixture rgb energy =
      [("ch0", intensity_for energy), ("ch1", rgb.1), ("ch2", rgb.2.1),
       ("ch3", max rgb.1 (max rgb.2.1 rgb.2.2))]) ∧
    (fixture.channel_count = 3 → _build_channels_for_fixture fixture rgb energy =
      [("ch0", rgb.1 * intensity_for energy / 255),
       ("ch1", rgb.2.1 * intensity_for energy / 255),
       ("ch2", rgb.2.2 * intensity_for energy / 255)]) ∧
    (fixture.channel_count = 1 → _build_channels_for_fixture fixture rgb energy =
      [("ch0", intensity_for energy)]) ∧
    (fixture.channel_count = 0 → _build_channels_for_fixture fixture rgb energy = []) ∧
    (_build_channels_for_fixture fx0 (200, 100, 50) 2 =
        [("ch0", 80), ("ch1", 40), ("ch2", 20)] ∧
      (∀ q ∈ _build_channels_for_fixture fx0 (200, 100, 50) 2, 0 ≤ q.2 ∧ q.2 ≤ 255) ∧
      (80 : Int) < 200 ∧ (40 : Int) < 100 ∧ (20 : Int) < 50) := by
  refine ⟨(intensity_eq_spec energy).symm, ?_, ?_, ?_, ?_, ?_, by decide, by decide, by decide,
    by decide, by decide⟩
  · intro hc
    unfold _build_channels_for_fixture
    rw [if_pos hc]
  · intro hc
    unfold _build_channels_for_fixture
    rw [if_neg (by omega), if_pos hc]
    have hmax : max rgb.2.2 (max rgb.1 rgb.2.1) = max rgb.1 (max rgb.2.1 rgb.2.2) := by
      rw [max_left_comm, max_comm rgb.2.2 rgb.2.1]
    rw [hmax]
  · intro hc
    unfold _build_channels_for_fixture
    rw [if_neg (by omega), if_neg (by omega), if_pos (by omega)]
  · intro hc
    unfold _build_channels_for_fixture
    rw [if_neg (by omega), if_neg (by omega), if_neg (by omega), if_pos (by omega)]
  · intro hc
    unfold _build_channels_for_fixture
    rw [if_neg (by omega), if_neg (by omega), if_neg (by omega), if_neg (by omega)]

/-- Witness for C8 at the concrete 3-channel fixture. -/
theorem c8_channel_layout_witness :
    _build_channels_for_fixture fx0 (200, 100, 50) 2 =
      [("ch0", (200 : Int) * intensity_for 2 / 255),
       ("ch1", (100 : Int) * intensity_for 2 / 255),
       ("ch2", (50 : Int) * intensity_for 2 / 255)] :=
  (c8_channel_layout fx0 (200, 100, 50) 2).2.2.2.1 rfl

theorem enum_map_snd_comp {β : Type} (g : FixtureDef → β) (l : List FixtureDef) :
    l.enum.map (fun p => g p.2) = l.map g := by
  have h : (fun p : Nat × FixtureDef => g p.2) = g ∘ Prod.snd := rfl
  rw [h, ← List.map_map, List.enum_map_snd]

/-- C10: on focus "mixed", apply_scene targets the concatenation of every
category's resolved fixture list, in map-iteration order, without
deduplication: the emitted states' fixture ids are exactly that concatenation,
the state count is the sum of the per-category lengths, and a fixture id
occurring in k categories yields k states. -/
theorem c10_mixed_focus_concatenation (scene : SemanticScene) (rig : Rig)
    (palettes : List (String × Palette))
    (fixture_categories : List (String × List String))
    (h : lower_str scene.focus = "mixed") :
    ((apply_scene scene rig palettes fixture_categories).states.map FixtureState.fixture_id
      = ((_index_fixtures_by_category rig fixture_categories).map Prod.snd).flatten.map
          FixtureDef.fixture_id) ∧
    ((apply_scene scene rig palettes fixture_categories).states.length
      = ((_index_fixtures_by_category rig fixture_categories).map
          (fun p => p.2.length)).sum) ∧
    (∀ fid : String,
      ((apply_scene scene rig palettes fixture_categories).states.map
          FixtureState.fixture_id).count fid
        = ((_index_fixtures_by_category rig fixture_categories).map
            (fun p => (p.2.map FixtureDef.fixture_id).count fid)).sum) := by
  have htargets : _resolve_fixtures_for_focus scene.focus
      (_index_fixtures_by_category rig fixture_categories)
      = ((_index_fixtures_by_category rig fixture_categories).map Prod.snd).flatten := by
    unfold _resolve_fixtures_for_focus
    rw [if_pos h]
  have hmapid : ∀ (targets : List FixtureDef) (cv : Nat × FixtureDef → List (String × Int)),
      (targets.enum.map (fun p => FixtureState.mk p.2.fixture_id (cv p))).map
          FixtureState.fixture_id
        = targets.map FixtureDef.fixture_id := by
    intro targets cv
    rw [List.map_map]
    exact enum_map_snd_comp FixtureDef.fixture_id targets
  have hstates : (apply_scene scene rig palettes fixture_categories).states.map
      FixtureState.fixture_id
      = ((_index_fixtures_by_category rig fixture_categories).map Prod.snd).flatten.map
          FixtureDef.fixture_id := by
    simp only [apply_scene, htargets]
    exact hmapid _ _
  refine ⟨hstates, ?_, fun fid => ?_⟩
  · have hlen := congrArg List.length hstates
    rw [List.length_map, List.length_map, List.length_flatten, List.map_map] at hlen
    exact hlen
  · rw [hstates, List.map_flatten, List.count_flatten, List.map_map, List.map_map]
    rfl

/-- Witness for C10 at a concrete rig with one fixture in two categories. -/
theorem c10_mixed_focus_concatenation_witness :
    ((apply_scene (SemanticScene.mk "m" 3 "p" "m" "none" "mixed") rig0 []
        [("wash", ["Par"]), ("puntuales", ["Par"])]).states.map FixtureState.fixture_id
      = ((_index_fixtures_by_category rig0
          [("wash", ["Par"]), ("puntuales", ["Par"])]).map Prod.snd).flatten.map
            FixtureDef.fixture_id) ∧
    ((apply_scene (SemanticScene.mk "m" 3 "p" "m" "none" "mixed") rig0 []
        [("wash", ["Par"]), ("puntuales", ["Par"])]).states.length
      = ((_index_fixtures_by_category rig0
          [("wash", ["Par"]), ("puntuales", ["Par"])]).map (fun p => p.2.length)).sum) ∧
    (∀ fid : String,
      ((apply_scene (SemanticScene.mk "m" 3 "p" "m" "none" "mixed") rig0 []
          [("wash", ["Par"]), ("puntuales", ["Par"])]).states.map
            FixtureState.fixture_id).count fid
        = ((_index_fixtures_by_category rig0
            [("wash", ["Par"]), ("puntuales", ["Par"])]).map
              (fun p => (p.2.map FixtureDef.fixture_id).count fid)).sum) :=
  c10_mixed_focus_concatenation (SemanticScene.mk "m" 3 "p" "m" "none" "mixed") rig0 []
    [("wash", ["Par"]), ("puntuales", ["Par"])] (by decide)

/-! ## Merge lemmas -/

theorem clamp_byte_bounds (x : Int) : 0 ≤ clamp_byte x ∧ clamp_byte x ≤ 255 :=
  ⟨le_max_left 0 _, max_le (by norm_num) (min_le_left 255 x)⟩

theorem insertIdx_at_append (x : EngineChild) :
    ∀ (pre post : List EngineChild),
      List.insertIdx pre.length x (pre ++ post) = pre ++ x :: post
  | [], _ => rfl
  | a :: pre, post => by
    simp only [List.cons_append, List.length_cons, List.insertIdx_succ_cons]
    rw [insertIdx_at_append x pre post]

theorem created_scene_nodes_length (fidx : String → Option FixtureDef) :
    ∀ (specs : List SceneSpec) (n : Nat),
      (created_scene_nodes fidx specs n).length = specs.length
  | [], _ => rfl
  | _ :: rest, n => by
    simp only [created_scene_nodes, List.length_cons]
    rw [created_scene_nodes_length fidx rest (n + 1)]

theorem created_scene_nodes_ids (fidx : String → Option FixtureDef) :
    ∀ (specs : List SceneSpec) (n : Nat),
      function_ids (created_scene_nodes fidx specs n) = List.range' n specs.length
  | [], _ => rfl
  | scene :: rest, n => by
    simp only [created_scene_nodes, function_ids, List.filterMap_cons, List.length_cons]
    rw [List.range'_succ]
    have ih := created_scene_nodes_ids fidx rest (n + 1)
    unfold function_ids at ih
    rw [ih]
    rfl

theorem append_scenes_monitor (fidx : String → Option FixtureDef) :
    ∀ (specs : List SceneSpec) (pre post : List EngineChild) (next_id : Nat),
      append_scenes fidx specs (pre ++ post) next_id (some pre.length)
        = (pre ++ created_scene_nodes fidx specs next_id ++ post,
           next_id + specs.length, some (pre.length + specs.length),
           List.range' next_id specs.length)
  | [], pre, post, next_id => by
    simp [append_scenes, created_scene_nodes, List.range']
  | scene :: rest, pre, post, next_id => by
    have hins : insert_function (pre ++ post) (some pre.length)
        (scene_function_node fidx scene next_id)
        = (pre ++ [EngineChild.function (scene_function_node fidx scene next_id)]) ++ post := by
      show List.insertIdx pre.length
          (EngineChild.function (scene_function_node fidx scene next_id)) (pre ++ post)
        = (pre ++ [EngineChild.function (scene_function_node fidx scene next_id)]) ++ post
      rw [insertIdx_at_append]
      simp
    have hlen : pre.length + 1
        = (pre ++ [EngineChild.function (scene_function_node fidx scene next_id)]).length := by
      simp
    simp only [append_scenes, hins, Option.map_some', hlen,
      append_scenes_monitor fidx rest _ post (next_id + 1)]
    simp only [Prod.mk.injEq, List.length_cons, List.length_append, List.length_nil,
      Option.some.injEq]
    refine ⟨?_, by omega, by omega, ?_⟩
    · simp only [created_scene_nodes, List.append_assoc, List.cons_append, List.nil_append]
    · rw [List.range'_succ]

theorem append_scenes_none (fidx : String → Option FixtureDef) :
    ∀ (specs : List SceneSpec) (engine : List EngineChild) (next_id : Nat),
      append_scenes fidx specs engine next_id none
        = (engine ++ created_scene_nodes fidx specs next_id, next_id + specs.length, none,
           List.range' next_id specs.length)
  | [], engine, next_id => by
    simp [append_scenes, created_scene_nodes, List.range']
  | scene :: rest, engine, next_id => by
    have hins : insert_function engine none (scene_function_node fidx scene next_id)
        = engine ++ [EngineChild.function (scene_function_node fidx scene next_id)] := rfl
    simp only [append_scenes, hins, Option.map_none',
      append_scenes_none fidx rest _ (next_id + 1)]
    simp only [Prod.mk.injEq, List.length_cons]
    refine ⟨?_, by omega, trivial, ?_⟩
    · simp only [created_scene_nodes, List.append_assoc, List.cons_append, List.nil_append]
    · rw [List.range'_succ]

theorem monitor_scan_none_spec : ∀ {l : List EngineChild}, monitor_scan l = none →
    ∀ c ∈ l, isMonitor c = false
  | [], _, c, hc => by cases hc
  | a :: l, h, c, hc => by
    unfold monitor_scan at h
    by_cases ha : isMonitor a
    · rw [if_pos ha] at h
      cases h
    · rw [if_neg ha] at h
      rcases List.mem_cons.mp hc with rfl | hc'
      · exact Bool.eq_false_iff.mpr ha
      · exact monitor_scan_none_spec (Option.map_eq_none'.mp h) c hc'

theorem monitor_scan_eq_none : ∀ {l : List EngineChild},
    (∀ c ∈ l, isMonitor c = false) → monitor_scan l = none
  | [], _ => rfl
  | a :: l, h => by
    unfold monitor_scan
    rw [if_neg (by simp [h a (List.mem_cons_self a l)]),
      monitor_scan_eq_none (fun c hc => h c (List.mem_cons_of_mem a hc))]
    rfl

theorem monitor_scan_some_spec : ∀ {l : List EngineChild} {m : Nat},
    monitor_scan l = some m →
    ∃ pre rest, l = pre ++ EngineChild.monitor :: rest ∧ pre.length = m ∧
      ∀ c ∈ pre, isMonitor c = false
  | [], m, h => by cases h
  | a :: l, m, h => by
    unfold monitor_scan at h
    by_cases ha : isMonitor a
    · rw [if_pos ha] at h
      injection h with h
      have haa : a = EngineChild.monitor := by
        cases a <;> simp [isMonitor] at ha ⊢
      exact ⟨[], l, by rw [haa]; rfl, h, by simp⟩
    · rw [if_neg ha] at h
      obtain ⟨m', hm', rfl⟩ := Option.map_eq_some'.mp h
      obtain ⟨pre, rest, hl, hlen, hpre⟩ := monitor_scan_some_spec hm'
      refine ⟨a :: pre, rest, by rw [List.cons_append, hl], by simp [hlen], ?_⟩
      intro c hc
      rcases List.mem_cons.mp hc with rfl | hc'
      · exact Bool.eq_false_iff.mpr ha
      · exact hpre c hc'

theorem function_ids_append (l1 l2 : List EngineChild) :
    function_ids (l1 ++ l2) = function_ids l1 ++ function_ids l2 :=
  List.filterMap_append l1 l2 _

theorem le_foldl_max : ∀ (l : List Nat) (a : Nat),
    a ≤ l.foldl Nat.max a ∧ ∀ i ∈ l, i ≤ l.foldl Nat.max a
  | [], a => ⟨Nat.le_refl a, fun i hi => by cases hi⟩
  | b :: l, a => by
    have ih := le_foldl_max l (Nat.max a b)
    simp only [List.foldl_cons]
    refine ⟨Nat.le_trans (Nat.le_max_left a b) ih.1, fun i hi => ?_⟩
    rcases List.mem_cons.mp hi with rfl | hi'
    · exact Nat.le_trans (Nat.le_max_right a i) ih.1
    · exact ih.2 i hi'

theorem existing_lt_next (engine : List EngineChild) :
    ∀ i ∈ function_ids engine, i < next_function_id engine := by
  intro i hi
  unfold next_function_id
  rw [if_neg (fun he => by rw [he] at hi; cases hi)]
  have := (le_foldl_max (function_ids engine) 0).2 i hi
  omega

theorem insert_function_at (A B : List EngineChild) (f : FunctionNode) :
    insert_function (A ++ B) (some A.length) f = A ++ EngineChild.function f :: B := by
  show List.insertIdx A.length (EngineChild.function f) (A ++ B)
    = A ++ EngineChild.function f :: B
  exact insertIdx_at_append _ A B

/-- Decomposition of a successful merge: the output is the input engine with
the block of created Function nodes spliced in, at the end when no Monitor
exists and right before the first Monitor otherwise. -/
theorem write_scenes_decomp (ws : Workspace) (rig : Rig) (scenes : SceneSet)
    (create_show : Bool) (show_name : String) (show_step_ms : Nat)
    (engine : List EngineChild) (h : ws.engine = some engine) :
    ∃ pre post,
      engine = pre ++ post ∧
      write_scenes_to_qlc ws rig scenes create_show show_name show_step_ms
        = .ok (pre ++ created_functions (fixture_index rig) scenes.scenes
            (next_function_id engine) create_show show_name show_step_ms ++ post) ∧
      (monitor_scan engine = none → post = []) ∧
      (∀ m, monitor_scan engine = some m →
        (∀ c ∈ pre, isMonitor c = false) ∧ ∃ rest, post = EngineChild.monitor :: rest) := by
  have hw : write_scenes_to_qlc ws rig scenes create_show show_name show_step_ms
      = (if create_show ∧ (append_scenes (fixture_index rig) scenes.scenes engine
            (next_function_id engine) (monitor_scan engine)).2.2.2 ≠ [] then
          Except.ok (insert_function
            (append_scenes (fixture_index rig) scenes.scenes engine
              (next_function_id engine) (monitor_scan engine)).1
            (append_scenes (fixture_index rig) scenes.scenes engine
              (next_function_id engine) (monitor_scan engine)).2.2.1
            (show_function_node
              (append_scenes (fixture_index rig) scenes.scenes engine
                (next_function_id engine) (monitor_scan engine)).2.1
              (append_scenes (fixture_index rig) scenes.scenes engine
                (next_function_id engine) (monitor_scan engine)).2.2.2
              show_name show_step_ms false))
        else Except.ok (append_scenes (fixture_index rig) scenes.scenes engine
          (next_function_id engine) (monitor_scan engine)).1) := by
    unfold write_scenes_to_qlc
    rw [h]
  have hrange : scenes.scenes ≠ [] →
      List.range' (next_function_id engine) scenes.scenes.length ≠ [] := by
    intro hs he
    exact hs (List.eq_nil_of_length_eq_zero (List.range'_eq_nil.mp he))
  cases hm : monitor_scan engine with
  | none =>
    refine ⟨engine, [], (List.append_nil engine).symm, ?_, fun _ => rfl,
      fun m hm' => by cases hm'⟩
    rw [hw, hm,
      append_scenes_none (fixture_index rig) scenes.scenes engine (next_function_id engine)]
    by_cases hc : create_show = true ∧ scenes.scenes ≠ []
    · rw [if_pos ⟨hc.1, hrange hc.2⟩]
      unfold created_functions
      rw [if_pos hc]
      show Except.ok ((engine ++ created_scene_nodes (fixture_index rig) scenes.scenes
          (next_function_id engine)) ++ [EngineChild.function (show_function_node
            (next_function_id engine + scenes.scenes.length)
            (List.range' (next_function_id engine) scenes.scenes.length)
            show_name show_step_ms false)]) = _
      simp [List.append_assoc]
    · rw [if_neg (fun hcc => hc ⟨hcc.1, fun hs => hcc.2 (by rw [hs]; rfl)⟩)]
      unfold created_functions
      rw [if_neg hc]
      simp
  | some m =>
    obtain ⟨pre, rest, hl, hlen, hpre⟩ := monitor_scan_some_spec hm
    subst hl
    refine ⟨pre, EngineChild.monitor :: rest, rfl, ?_,
      fun hnone => Option.noConfusion hnone,
      fun m' _ => ⟨hpre, rest, rfl⟩⟩
    rw [hw, hm, ← hlen,
      append_scenes_monitor (fixture_index rig) scenes.scenes pre (EngineChild.monitor :: rest)
        (next_function_id (pre ++ EngineChild.monitor :: rest))]
    set n := next_function_id (pre ++ EngineChild.monitor :: rest) with hn
    by_cases hc : create_show = true ∧ scenes.scenes ≠ []
    · rw [if_pos ⟨hc.1, hrange hc.2⟩]
      unfold created_functions
      rw [if_pos hc]
      have hclen : (pre ++ created_scene_nodes (fixture_index rig) scenes.scenes n).length
          = pre.length + scenes.scenes.length := by
        simp [created_scene_nodes_length]
      rw [show pre ++ created_scene_nodes (fixture_index rig) scenes.scenes n
            ++ EngineChild.monitor :: rest
          = (pre ++ created_scene_nodes (fixture_index rig) scenes.scenes n)
            ++ EngineChild.monitor :: rest from by rw [List.append_assoc],
        ← hclen, insert_function_at]
      simp [List.append_assoc]
    · rw [if_neg (fun hcc => hc ⟨hcc.1, fun hs => hcc.2 (by rw [hs]; rfl)⟩)]
      unfold created_functions
      rw [if_neg hc]
      simp

/-! ## Channel resolution and payload lemmas -/

theorem isPrefixOf_append_self : ∀ (p rest : List Char), p.isPrefixOf (p ++ rest) = true
  | [], _ => by simp [List.isPrefixOf]
  | c :: p, rest => by simp [List.isPrefixOf, isPrefixOf_append_self p rest]

theorem ch_prefix_value_cons_pos (lowered p : String) (ps : List String)
    (h : (starts_with lowered p && string_digits (drop_chars lowered p.data.length)) = true) :
    ch_prefix_value lowered (p :: ps)
      = some (parse_digits (drop_chars lowered p.data.length)) := by
  unfold ch_prefix_value
  rw [if_pos h]

theorem ch_prefix_value_cons_neg (lowered p : String) (ps : List String)
    (h : (starts_with lowered p && string_digits (drop_chars lowered p.data.length)) = false) :
    ch_prefix_value lowered (p :: ps) = ch_prefix_value lowered ps := by
  conv_lhs => rw [ch_prefix_value]
  rw [if_neg (by rw [h]; exact Bool.false_ne_true)]

theorem string_digits_mk (ds : List Char) (hne : ds ≠ [])
    (hall : ds.all Char.isDigit = true) : string_digits (String.mk ds) = true := by
  unfold string_digits
  rw [show (String.mk ds).data = ds from rfl, hall]
  cases ds with
  | nil => exact absurd rfl hne
  | cons c cs => rfl

theorem string_digits_c_head (lowered : String) (cs : List Char)
    (hdata : lowered.data = 'c' :: cs) : string_digits lowered = false := by
  unfold string_digits
  rw [hdata]
  have hc : ('c' : Char).isDigit = false := by decide
  simp [hc]

theorem drop_chars_append (lowered p : String) (ds : List Char)
    (hdata : lowered.data = p.data ++ ds) :
    drop_chars lowered p.data.length = String.mk ds := by
  unfold drop_chars
  rw [hdata]
  exact congrArg String.mk (List.drop_left p.data ds)

theorem starts_with_append (lowered p : String) (ds : List Char)
    (hdata : lowered.data = p.data ++ ds) : starts_with lowered p = true := by
  unfold starts_with
  rw [hdata]
  exact isPrefixOf_append_self p.data ds

theorem ch_prefix_value_spec (lowered : String) (p : String) (ds : List Char)
    (hmem : p ∈ (["ch", "channel", "chan"] : List String))
    (hdata : lowered.data = p.data ++ ds)
    (hne : ds ≠ []) (hall : ds.all Char.isDigit = true) :
    ch_prefix_value lowered ["ch", "channel", "chan"]
      = some (parse_digits (String.mk ds)) := by
  have hds := string_digits_mk ds hne hall
  have ha : ('a' : Char).isDigit = false := by decide
  simp only [List.mem_cons, List.not_mem_nil, or_false] at hmem
  rcases hmem with rfl | rfl | rfl
  · rw [ch_prefix_value_cons_pos lowered "ch" _
      (by rw [starts_with_append lowered "ch" ds hdata,
        drop_chars_append lowered "ch" ds hdata, hds]; rfl)]
    rw [drop_chars_append lowered "ch" ds hdata]
  · have hch2 : drop_chars lowered ("ch" : String).data.length
        = String.mk ('a' :: 'n' :: 'n' :: 'e' :: 'l' :: ds) := by
      unfold drop_chars
      rw [hdata]
      rfl
    rw [ch_prefix_value_cons_neg lowered "ch" _
      (by rw [hch2]; simp [string_digits, ha])]
    rw [ch_prefix_value_cons_pos lowered "channel" _
      (by rw [starts_with_append lowered "channel" ds hdata,
        drop_chars_append lowered "channel" ds hdata, hds]; rfl)]
    rw [drop_chars_append lowered "channel" ds hdata]
  · cases ds with
    | nil => exact absurd rfl hne
    | cons d ds' =>
      have hd : d.isDigit = true := by
        rw [List.all_cons] at hall
        exact (Bool.and_eq_true_iff.mp hall).1
      have hnd : (('n' : Char) == d) = false := by
        cases hbeq : (('n' : Char) == d)
        · rfl
        · have hnde : ('n' : Char) = d := eq_of_beq hbeq
          rw [← hnde] at hd
          exact absurd hd (by decide)
      have hch2 : drop_chars lowered ("ch" : String).data.length
          = String.mk ('a' :: 'n' :: d :: ds') := by
        unfold drop_chars
        rw [hdata]
        rfl
      have hsw7 : starts_with lowered "channel" = false := by
        unfold starts_with
        rw [hdata]
        show (['c', 'h', 'a', 'n', 'n', 'e', 'l'].isPrefixOf
          ('c' :: 'h' :: 'a' :: 'n' :: d :: ds')) = false
        simp [List.isPrefixOf, hnd]
      rw [ch_prefix_value_cons_neg lowered "ch" _ (by rw [hch2]; simp [string_digits, ha])]
      rw [ch_prefix_value_cons_neg lowered "channel" _ (by rw [hsw7]; rfl)]
      rw [ch_prefix_value_cons_pos lowered "chan" _
        (by rw [starts_with_append lowered "chan" (d :: ds') hdata,
          drop_chars_append lowered "chan" (d :: ds') hdata, hds]; rfl)]
      rw [drop_chars_append lowered "chan" (d :: ds') hdata]

theorem name_lookup_some (fx : FixtureDef) (lowered : String) (fb : Nat) :
    _name_lookup (some fx) lowered fb
      = match fx.channels.find? (fun ch => lower_str ch.name == lowered) with
        | some ch => ch.index
        | none => fb := rfl

theorem resolved_items_length (fixture : Option FixtureDef) (fs : FixtureState) :
    (resolved_items fixture fs).length = fs.channel_values.length := by
  unfold resolved_items
  rw [List.length_map, List.enum_length]

/-! ## Claim theorems: workspace synthesis engine -/

/-- C1: a FixtureState with an empty channel map emits no payload node; a
non-empty one emits one FixtureVal whose payload encodes the (index, value)
pairs — every channel key resolved to an index (numeric string parsed
directly; ch/channel/chan prefix with a numeric suffix parsed from the
suffix; else case-insensitive fixture channel-name lookup; else the key's
enumeration position), every value clamped to [0,255], pairs sorted
ascending by index, flattened comma-joined; and merging the SceneSpec that
sets channel "ch0" of fixture "0" to 128 produces exactly one new Scene
Function node whose payload decodes to index 0, value 128. -/
theorem c1_channel_payload_encoding :
    (∀ (fidx : String → Option FixtureDef) (fs : FixtureState),
      fs.channel_values = [] → _append_fixture_channels fidx fs = none) ∧
    (∀ (fidx : String → Option FixtureDef) (fs : FixtureState),
      fs.channel_values ≠ [] → ∃ items,
        _append_fixture_channels fidx fs
          = some (FuncChild.fixtureVal fs.fixture_id (encode_items items)) ∧
        items.Perm (resolved_items (fidx fs.fixture_id) fs) ∧
        List.Sorted pair_le items ∧
        ∀ q ∈ items, 0 ≤ q.2 ∧ q.2 ≤ 255) ∧
    (∀ (fixture : Option FixtureDef) (key : String) (fallback : Nat),
      string_digits (lower_str key) = true →
        _resolve_channel_index fixture key fallback = parse_digits (lower_str key)) ∧
    (∀ (fixture : Option FixtureDef) (key p : String) (ds : List Char) (fallback : Nat),
      p ∈ (["ch", "channel", "chan"] : List String) →
      (lower_str key).data = p.data ++ ds → ds ≠ [] → ds.all Char.isDigit = true →
        _resolve_channel_index fixture key fallback = parse_digits (String.mk ds)) ∧
    (∀ (fx : FixtureDef) (key : String) (fallback : Nat) (ch : ChannelDef),
      string_digits (lower_str key) = false →
      ch_prefix_value (lower_str key) ["ch", "channel", "chan"] = none →
      fx.channels.find? (fun c => lower_str c.name == lower_str key) = some ch →
        _resolve_channel_index (some fx) key fallback = ch.index) ∧
    (∀ (fixture : Option FixtureDef) (key : String) (fallback : Nat),
      string_digits (lower_str key) = false →
      ch_prefix_value (lower_str key) ["ch", "channel", "chan"] = none →
      (∀ fx, fixture = some fx →
        fx.channels.find? (fun c => lower_str c.name == lower_str key) = none) →
        _resolve_channel_index fixture key fallback = fallback) ∧
    (write_scenes_to_qlc ws_fixture_only rig0 (SceneSet.mk "t" [spec_ch0]) false "x" 0
        = .ok [EngineChild.fixture "0",
            EngineChild.function (FunctionNode.mk 0 "Scene" "S1"
              [FuncChild.speed 0 0 0, FuncChild.fixtureVal "0" "0,128"])] ∧
      decode_payload "0,128" = some [(0, 128)]) := by
  refine ⟨?_, ?_, ?_, ?_, ?_, ?_, by decide, by decide⟩
  · intro fidx fs h
    simp [_append_fixture_channels, resolved_items, h]
  · intro fidx fs h
    unfold _append_fixture_channels
    have hne : (resolved_items (fidx fs.fixture_id) fs).isEmpty ≠ true := by
      intro he
      have he' := List.isEmpty_iff.mp he
      have hl := resolved_items_length (fidx fs.fixture_id) fs
      rw [he'] at hl
      exact h (List.eq_nil_of_length_eq_zero hl.symm)
    rw [if_neg hne]
    refine ⟨List.insertionSort pair_le (resolved_items (fidx fs.fixture_id) fs), rfl,
      List.perm_insertionSort pair_le _, List.sorted_insertionSort pair_le _, ?_⟩
    intro q hq
    have hq' : q ∈ resolved_items (fidx fs.fixture_id) fs :=
      (List.perm_insertionSort pair_le _).subset hq
    unfold resolved_items at hq'
    obtain ⟨p, _, rfl⟩ := List.mem_map.mp hq'
    exact clamp_byte_bounds p.2.2
  · intro fixture key fallback h
    unfold _resolve_channel_index
    rw [if_pos h]
  · intro fixture key p ds fallback hmem hdata hne hall
    have hdig : string_digits (lower_str key) = false := by
      have hmem' := hmem
      simp only [List.mem_cons, List.not_mem_nil, or_false] at hmem'
      rcases hmem' with rfl | rfl | rfl
      · exact string_digits_c_head _ ('h' :: ds) (by rw [hdata]; rfl)
      · exact string_digits_c_head _ ('h' :: 'a' :: 'n' :: 'n' :: 'e' :: 'l' :: ds)
          (by rw [hdata]; rfl)
      · exact string_digits_c_head _ ('h' :: 'a' :: 'n' :: ds) (by rw [hdata]; rfl)
    unfold _resolve_channel_index
    rw [if_neg (by rw [hdig]; exact Bool.false_ne_true),
      ch_prefix_value_spec (lower_str key) p ds hmem hdata hne hall]
  · intro fx key fallback ch hdig hpv hfind
    unfold _resolve_channel_index
    rw [if_neg (by rw [hdig]; exact Bool.false_ne_true), hpv]
    show _name_lookup (some fx) (lower_str key) fallback = ch.index
    rw [name_lookup_some, hfind]
  · intro fixture key fallback hdig hpv hfind
    unfold _resolve_channel_index
    rw [if_neg (by rw [hdig]; exact Bool.false_ne_true), hpv]
    cases fixture with
    | none => rfl
    | some fx =>
      show _name_lookup (some fx) (lower_str key) fallback = fallback
      rw [name_lookup_some, hfind fx rfl]

/-- Witness for C1: a state with an empty channel map emits no node. -/
theorem c1_channel_payload_encoding_witness :
    _append_fixture_channels (fixture_index rig0) (FixtureState.mk "0" []) = none :=
  c1_channel_payload_encoding.1 (fixture_index rig0) (FixtureState.mk "0" []) rfl

theorem range'_concat_one (s n : Nat) :
    List.range' s (n + 1) = List.range' s n ++ [s + n] := by
  have h : List.range' s (n + 1) = List.range' s n ++ [s + 1 * n] :=
    List.range'_concat s n
  simpa using h

theorem created_functions_ids (fidx : String → Option FixtureDef) (specs : List SceneSpec)
    (n : Nat) (create_show : Bool) (show_name : String) (step : Nat) :
    function_ids (created_functions fidx specs n create_show show_name step)
      = List.range' n
          (specs.length + (if create_show ∧ specs ≠ [] then 1 else 0)) := by
  unfold created_functions
  rw [function_ids_append, created_scene_nodes_ids]
  by_cases hc : create_show = true ∧ specs ≠ []
  · rw [if_pos hc, if_pos hc]
    rw [show function_ids [EngineChild.function (show_function_node (n + specs.length)
        (List.range' n specs.length) show_name step false)] = [n + specs.length] from rfl]
    exact (range'_concat_one n specs.length).symm
  · rw [if_neg hc, if_neg hc]
    simp [function_ids]

theorem created_functions_only_functions (fidx : String → Option FixtureDef)
    (specs : List SceneSpec) (n : Nat) (create_show : Bool) (show_name : String)
    (step : Nat) :
    ∀ c ∈ created_functions fidx specs n create_show show_name step,
      isFunction c = true := by
  intro c hc
  unfold created_functions at hc
  rcases List.mem_append.mp hc with hs | hshow
  · clear hc
    induction specs generalizing n with
    | nil => cases hs
    | cons spec rest ih =>
      rcases List.mem_cons.mp hs with rfl | hs'
      · rfl
      · exact ih (n + 1) hs'
  · by_cases hcs : create_show = true ∧ specs ≠ []
    · rw [if_pos hcs] at hshow
      rcases List.mem_cons.mp hshow with rfl | h0
      · rfl
      · cases h0
    · rw [if_neg hcs] at hshow
      cases hshow

/-- Each created scene node pairs the i-th SceneSpec with id next_id + i:
creation order is SceneSpec order. -/
theorem created_scene_nodes_enumFrom (fidx : String → Option FixtureDef) :
    ∀ (specs : List SceneSpec) (n : Nat),
      created_scene_nodes fidx specs n
        = (List.enumFrom n specs).map
            (fun p => EngineChild.function (scene_function_node fidx p.2 p.1))
  | [], _ => rfl
  | spec :: rest, n => by
    simp only [created_scene_nodes, List.enumFrom, List.map_cons]
    rw [created_scene_nodes_enumFrom fidx rest (n + 1)]

theorem merge_ids_nodup {pre post created : List EngineChild} {next k : Nat}
    (hengine : (function_ids (pre ++ post)).Nodup)
    (hcreated : function_ids created = List.range' next k)
    (hlt : ∀ i ∈ function_ids (pre ++ post), i < next) :
    (function_ids (pre ++ created ++ post)).Nodup := by
  rw [function_ids_append, function_ids_append, hcreated, List.append_assoc]
  rw [function_ids_append] at hengine hlt
  rw [List.nodup_append] at hengine
  obtain ⟨hpre, hpost, hdisj⟩ := hengine
  rw [List.nodup_append]
  refine ⟨hpre, ?_, ?_⟩
  · rw [List.nodup_append]
    refine ⟨List.nodup_range' .., hpost, ?_⟩
    intro a ha hb
    have h1 : next ≤ a := (List.mem_range'_1.mp ha).1
    have h2 : a < next := hlt a (List.mem_append_right _ hb)
    omega
  · intro a ha hb
    rcases List.mem_append.mp hb with hc | hp
    · have h1 : next ≤ a := (List.mem_range'_1.mp hc).1
      have h2 : a < next := hlt a (List.mem_append_left _ ha)
      omega
    · exact hdisj ha hp

/-- C2: in any merged document every Function id is unique (assuming the input
invariant); the created block's ids are consecutive from max existing + 1, in
creation order (SceneSpec order, then the wrapping show); merging two
SceneSpecs plus a show into a document with ids {0,2,5} yields 6, 7 and show
id 8 whose Track references 6 and 7. -/
theorem c2_id_allocation (ws : Workspace) (rig : Rig) (scenes : SceneSet)
    (create_show : Bool) (show_name : String) (show_step_ms : Nat)
    (engine : List EngineChild) (h : ws.engine = some engine)
    (huniq : (function_ids engine).Nodup) :
    (∃ pre post,
      engine = pre ++ post ∧
      write_scenes_to_qlc ws rig scenes create_show show_name show_step_ms
        = .ok (pre ++ created_functions (fixture_index rig) scenes.scenes
            (next_function_id engine) create_show show_name show_step_ms ++ post) ∧
      function_ids (created_functions (fixture_index rig) scenes.scenes
          (next_function_id engine) create_show show_name show_step_ms)
        = List.range' (next_function_id engine)
            (scenes.scenes.length
              + (if create_show ∧ scenes.scenes ≠ [] then 1 else 0)) ∧
      (∀ i ∈ function_ids engine, i < next_function_id engine) ∧
      (function_ids (pre ++ created_functions (fixture_index rig) scenes.scenes
          (next_function_id engine) create_show show_name show_step_ms ++ post)).Nodup) ∧
    (write_scenes_to_qlc ws025 rig0 (SceneSet.mk "t" [spec_ch0, spec_two]) true
        "Generated Show" 5000
      = .ok [EngineChild.fixture "0",
          EngineChild.function (FunctionNode.mk 0 "Scene" "Old0" []),
          EngineChild.function (FunctionNode.mk 2 "Scene" "Old2" []),
          EngineChild.function (FunctionNode.mk 5 "Chaser" "Old5" []),
          EngineChild.function (FunctionNode.mk 6 "Scene" "S1"
            [FuncChild.speed 0 0 0, FuncChild.fixtureVal "0" "0,128"]),
          EngineChild.function (FunctionNode.mk 7 "Scene" "S2"
            [FuncChild.speed 0 0 0, FuncChild.fixtureVal "0" "0,20,2,10"]),
          EngineChild.function (FunctionNode.mk 8 "Show" "Generated Show"
            [FuncChild.timeDivision "Time" 120,
             FuncChild.track 0 "Generated Show" 6
               [ShowEntry.mk 6 0 5000, ShowEntry.mk 7 5000 5000]])]) := by
  refine ⟨?_, by decide⟩
  obtain ⟨pre, post, hsplit, hok, -, -⟩ :=
    write_scenes_decomp ws rig scenes create_show show_name show_step_ms engine h
  subst hsplit
  have hids := created_functions_ids (fixture_index rig) scenes.scenes
    (next_function_id (pre ++ post)) create_show show_name show_step_ms
  have hlt := existing_lt_next (pre ++ post)
  exact ⟨pre, post, rfl, hok, hids, hlt, merge_ids_nodup huniq hids hlt⟩

/-- Witness for C2 at the concrete {0,2,5} document. -/
theorem c2_id_allocation_witness :
    write_scenes_to_qlc ws025 rig0 (SceneSet.mk "t" [spec_ch0, spec_two]) true
        "Generated Show" 5000
      = .ok [EngineChild.fixture "0",
          EngineChild.function (FunctionNode.mk 0 "Scene" "Old0" []),
          EngineChild.function (FunctionNode.mk 2 "Scene" "Old2" []),
          EngineChild.function (FunctionNode.mk 5 "Chaser" "Old5" []),
          EngineChild.function (FunctionNode.mk 6 "Scene" "S1"
            [FuncChild.speed 0 0 0, FuncChild.fixtureVal "0" "0,128"]),
          EngineChild.function (FunctionNode.mk 7 "Scene" "S2"
            [FuncChild.speed 0 0 0, FuncChild.fixtureVal "0" "0,20,2,10"]),
          EngineChild.function (FunctionNode.mk 8 "Show" "Generated Show"
            [FuncChild.timeDivision "Time" 120,
             FuncChild.track 0 "Generated Show" 6
               [ShowEntry.mk 6 0 5000, ShowEntry.mk 7 5000 5000]])] :=
  (c2_id_allocation ws025 rig0 (SceneSet.mk "t" [spec_ch0, spec_two]) true
    "Generated Show" 5000 _ rfl (by decide)).2

/-- C3: every newly inserted Function node lands immediately before the first
Monitor child when one exists, else at the end of the Engine children, and the
created block lists the nodes in creation order (the i-th SceneSpec becomes
the node with id next + i, then the optional show). -/
theorem c3_insertion_position (ws : Workspace) (rig : Rig) (scenes : SceneSet)
    (create_show : Bool) (show_name : String) (show_step_ms : Nat)
    (engine : List EngineChild) (h : ws.engine = some engine) :
    ∃ pre post,
      engine = pre ++ post ∧
      write_scenes_to_qlc ws rig scenes create_show show_name show_step_ms
        = .ok (pre ++ created_functions (fixture_index rig) scenes.scenes
            (next_function_id engine) create_show show_name show_step_ms ++ post) ∧
      created_scene_nodes (fixture_index rig) scenes.scenes (next_function_id engine)
        = (List.enumFrom (next_function_id engine) scenes.scenes).map
            (fun p => EngineChild.function (scene_function_node (fixture_index rig) p.2 p.1)) ∧
      ((∀ c ∈ engine, isMonitor c = false) → post = []) ∧
      ((∃ c ∈ engine, isMonitor c = true) →
        (∀ c ∈ pre, isMonitor c = false) ∧
        ∃ rest, post = EngineChild.monitor :: rest) := by
  obtain ⟨pre, post, hsplit, hok, hnone, hsome⟩ :=
    write_scenes_decomp ws rig scenes create_show show_name show_step_ms engine h
  refine ⟨pre, post, hsplit, hok,
    created_scene_nodes_enumFrom (fixture_index rig) scenes.scenes _, ?_, ?_⟩
  · intro hall
    exact hnone (monitor_scan_eq_none hall)
  · intro hex
    cases hscan : monitor_scan engine with
    | none =>
      obtain ⟨c, hc, hmc⟩ := hex
      rw [monitor_scan_none_spec hscan c hc] at hmc
      cases hmc
    | some m => exact hsome m hscan

/-- Witness for C3 at the concrete Monitor-bearing document. -/
theorem c3_insertion_position_witness :
    ∃ pre post,
      [EngineChild.fixture "0", EngineChild.monitor] = pre ++ post ∧
      write_scenes_to_qlc (Workspace.mk (some [EngineChild.fixture "0", EngineChild.monitor]))
          rig0 (SceneSet.mk "t" [spec_ch0]) false "x" 0
        = .ok (pre ++ created_functions (fixture_index rig0) [spec_ch0]
            (next_function_id [EngineChild.fixture "0", EngineChild.monitor]) false "x" 0
            ++ post) ∧
      created_scene_nodes (fixture_index rig0) [spec_ch0]
          (next_function_id [EngineChild.fixture "0", EngineChild.monitor])
        = (List.enumFrom
            (next_function_id [EngineChild.fixture "0", EngineChild.monitor])
            [spec_ch0]).map
              (fun p => EngineChild.function (scene_function_node (fixture_index rig0) p.2 p.1)) ∧
      ((∀ c ∈ [EngineChild.fixture "0", EngineChild.monitor], isMonitor c = false) →
        post = []) ∧
      ((∃ c ∈ [EngineChild.fixture "0", EngineChild.monitor], isMonitor c = true) →
        (∀ c ∈ pre, isMonitor c = false) ∧
        ∃ rest, post = EngineChild.monitor :: rest) :=
  c3_insertion_position (Workspace.mk (some [EngineChild.fixture "0", EngineChild.monitor]))
    rig0 (SceneSet.mk "t" [spec_ch0]) false "x" 0 _ rfl

/-- C4: a source document without an Engine section fails with the structural
error and yields no output document; a successful merge only splices new
Function nodes into the engine children, so every pre-existing node survives
unchanged (the input is a sublist of the output) and the input value itself is
never modified. -/
theorem c4_merge_atomicity (ws : Workspace) (rig : Rig) (scenes : SceneSet)
    (create_show : Bool) (show_name : String) (show_step_ms : Nat) :
    (ws.engine = none →
      write_scenes_to_qlc ws rig scenes create_show show_name show_step_ms
        = .error "QLC+ workspace missing <Engine> section") ∧
    (ws.engine = none →
      ∀ out, write_scenes_to_qlc ws rig scenes create_show show_name show_step_ms
        ≠ .ok out) ∧
    (∀ engine, ws.engine = some engine →
      ∃ out, write_scenes_to_qlc ws rig scenes create_show show_name show_step_ms
          = .ok out ∧
        engine.Sublist out ∧
        ∃ pre post created,
          engine = pre ++ post ∧ out = pre ++ created ++ post ∧
          ∀ c ∈ created, isFunction c = true) := by
  have herr : ws.engine = none →
      write_scenes_to_qlc ws rig scenes create_show show_name show_step_ms
        = .error "QLC+ workspace missing <Engine> section" := by
    intro hnone
    unfold write_scenes_to_qlc
    rw [hnone]
  refine ⟨herr, ?_, ?_⟩
  · intro hnone out hok
    rw [herr hnone] at hok
    cases hok
  intro engine h
  obtain ⟨pre, post, hsplit, hok, -, -⟩ :=
    write_scenes_decomp ws rig scenes create_show show_name show_step_ms engine h
  refine ⟨_, hok, ?_, pre, post,
    created_functions (fixture_index rig) scenes.scenes (next_function_id engine)
      create_show show_name show_step_ms, hsplit, rfl,
    created_functions_only_functions (fixture_index rig) scenes.scenes
      (next_function_id engine) create_show show_name show_step_ms⟩
  rw [hsplit, List.append_assoc]
  exact (List.sublist_append_right _ post).append_left pre

/-- Witness for C4: the engine-less workspace fails with the structural error. -/
theorem c4_merge_atomicity_witness :
    write_scenes_to_qlc (Workspace.mk none) rig0 (SceneSet.mk "t" [spec_ch0])
      false "x" 0 = .error "QLC+ workspace missing <Engine> section" :=
  (c4_merge_atomicity (Workspace.mk none) rig0 (SceneSet.mk "t" [spec_ch0])
    false "x" 0).1 rfl

end SceneGen
